import Mathlib

/-!
Verification of the `cleanser` disk-space scanner core.

A shallow embedding of the core of the `cleanser` Rust program
(`src/types.rs`, `src/scanner.rs`, `src/cleaner.rs`) together with
proofs about its consolidation pass, risk classification, threshold
guards, duplicate detection and deletion loop.

Filesystem I/O performed by the Rust code (directory walking, size
summation, hashing, deletion) is made explicit: each traversal's
per-entry decision logic is embedded as a pure function of the data the
I/O would have produced (paths, directory flags, recursive byte sums,
file contents), and the orchestration that follows the I/O is embedded
over those values.  Rust `u64` sizes are modelled as `Nat`; the sums
involved are sums of file sizes, far below `2^64`, so wrap-around is
unreachable and not modelled.
-/

namespace Cleanser

/-! ## Character/string primitives

Structural (kernel-reducible) implementations of the string operations
the Rust code uses: substring containment (`str::contains`), suffix
tests (regex `$` anchors), ASCII lower-casing (the `(?i)` regex flag and
`str::to_lowercase`, restricted to ASCII, which is all the patterns
exercise). -/

/-- Whether the char list `p` is a prefix of `s`. -/
def isPrefixCh : List Char → List Char → Bool
  | [], _ => true
  | _ :: _, [] => false
  | a :: as, b :: bs => a = b && isPrefixCh as bs

/-- Whether `pat` occurs as a contiguous run inside `s`. -/
def containsCh (pat : List Char) : List Char → Bool
  | [] => pat.isEmpty
  | c :: rest => isPrefixCh pat (c :: rest) || containsCh pat rest

/-- Rust `str::contains` on our `String` model. -/
def strContains (s pat : String) : Bool := containsCh pat.toList s.toList

/-- Rust `str::ends_with` (used to model the `$`-anchored regexes). -/
def strEndsWith (s suf : String) : Bool :=
  isPrefixCh suf.toList.reverse s.toList.reverse

/-- ASCII lower-casing of one character. -/
def asciiLowerChar (c : Char) : Char :=
  if 'A' ≤ c && c ≤ 'Z' then Char.ofNat (c.toNat + 32) else c

/-- ASCII lower-casing of a string (models `to_lowercase` / regex `(?i)`
on the ASCII patterns the scanner uses). -/
def strToLower (s : String) : String := ⟨s.toList.map asciiLowerChar⟩

/-- Rust `String::len` is the UTF-8 byte length; the consolidation sort
key uses it. -/
def utf8Len (s : String) : Nat := (s.toList.map Char.utf8Size).sum

/-! ## Rust `Path` component semantics

`std::path::Path` equality and `starts_with` compare parsed component
lists, not raw strings: repeated separators collapse, a trailing
separator is ignored, and a `.` component is dropped except as the
leading `CurDir` of a relative path.  We parse a path string into its
component list; the root directory is represented by the (otherwise
impossible) component `['/']`. -/

/-- Split a char list at `'/'` separators (keeping empty pieces). -/
def splitSlashAux : List Char → List Char → List (List Char)
  | [], cur => [cur.reverse]
  | c :: cs, cur =>
    if c = '/' then cur.reverse :: splitSlashAux cs []
    else splitSlashAux cs (c :: cur)

/-- The non-empty `/`-separated segments of a char list. -/
def rawSegs (cs : List Char) : List (List Char) :=
  (splitSlashAux cs []).filter (fun seg => !seg.isEmpty)

/-- The component list of a path string, following Rust
`Path::components` (restricted to Unix paths): a leading `RootDir` for
absolute paths, `.` components dropped except a leading `CurDir` of a
relative path, empty segments dropped. -/
def pathComponents (s : String) : List (List Char) :=
  let cs := s.toList
  let raw := rawSegs cs
  if cs.head? = some '/' then
    ['/'] :: raw.filter (fun seg => seg ≠ ['.'])
  else
    match raw with
    | [] => []
    | c0 :: rest => c0 :: rest.filter (fun seg => seg ≠ ['.'])

/-- Rust `Path::starts_with`: component-wise prefix. -/
def rsStartsWith (p q : String) : Bool :=
  (pathComponents q).isPrefixOf (pathComponents p)

/-- Rust `Path` equality: component-wise equality. -/
def pathEqB (p q : String) : Bool := pathComponents p == pathComponents q

/-- Whether `p` is a strict descendant of `q`: the test
`path.starts_with(kept_path) && path != kept_path` from
`deduplicate_nested_paths` (scanner.rs:93). -/
def isChildPath (p q : String) : Bool := rsStartsWith p q && !(pathEqB p q)

/-! ## Data model (`src/types.rs`) -/

/-- The `ScanSpeed` enumeration (types.rs:7). -/
inductive ScanSpeed where
  | Quick
  | Normal
  | Thorough
deriving DecidableEq, Repr

/-- The `RiskLevel` enumeration (types.rs:30); `derive(PartialOrd, Ord)` orders by
declaration order `Safe < Moderate < Risky`. -/
inductive RiskLevel where
  | Safe
  | Moderate
  | Risky
deriving DecidableEq, Repr

/-- Discriminant index of a `RiskLevel` variant; Rust's derived `Ord`
compares these. -/
def RiskLevel.idx : RiskLevel → Nat
  | .Safe => 0
  | .Moderate => 1
  | .Risky => 2

/-- The derived `<=` of `RiskLevel`. -/
def riskLe (a b : RiskLevel) : Bool := a.idx ≤ b.idx

/-- The `CleanCategory` enumeration (types.rs:60). -/
inductive CleanCategory where
  | SystemCache
  | BrowserCache
  | AppCache
  | SystemLogs
  | AppLogs
  | TempFiles
  | NodeModules
  | BuildArtifacts
  | PipCache
  | BrewCache
  | CargoCache
  | LargeFiles
  | DuplicateFiles
deriving DecidableEq, Repr

/-- The `CleanableItem` record (types.rs:50). -/
structure CleanableItem where
  path : String
  size : Nat
  category : CleanCategory
  risk_level : RiskLevel
  description : String
deriving DecidableEq, Repr

/-- The `ScanResults` record (types.rs:97). -/
structure ScanResults where
  items : List CleanableItem
  total_size : Nat
  scan_speed : ScanSpeed
deriving DecidableEq, Repr

/-- The `FileHash` record (types.rs:113): the grouping key of the duplicate
detector. -/
structure FileHash where
  hash : String
  size : Nat
deriving DecidableEq, Repr

/-! ## Consolidation (`deduplicate_nested_paths`, scanner.rs:78-103) -/

/-- Sort key relation of the consolidation sort: path byte length,
non-decreasing (scanner.rs:82). -/
def pathLenLe (a b : CleanableItem) : Prop := utf8Len a.path ≤ utf8Len b.path

instance : DecidableRel pathLenLe := fun a b => Nat.decLe (utf8Len a.path) (utf8Len b.path)

instance : IsTotal CleanableItem pathLenLe :=
  ⟨fun a b => Nat.le_total (utf8Len a.path) (utf8Len b.path)⟩

instance : IsTrans CleanableItem pathLenLe :=
  ⟨fun _ _ _ hab hbc => Nat.le_trans hab hbc⟩

/-- Rust `sort_by(|a, b| a.path.len().cmp(&b.path.len()))` is a stable
sort by path byte length; insertion sort with `pathLenLe` is that stable
sort. -/
def sortByPathLen (items : List CleanableItem) : List CleanableItem :=
  items.insertionSort pathLenLe

/-- The `deduplicated.iter().any(...)` child test (scanner.rs:90-94). -/
def isChildOfKept (kept : List CleanableItem) (item : CleanableItem) : Bool :=
  kept.any (fun k => isChildPath item.path k.path)

/-- The `for item in sorted_items` loop of `deduplicate_nested_paths`
(scanner.rs:86-100): `kept` is the `deduplicated` vector. -/
def dedupLoop : List CleanableItem → List CleanableItem → List CleanableItem
  | kept, [] => kept
  | kept, item :: rest =>
    if isChildOfKept kept item then dedupLoop kept rest
    else dedupLoop (kept ++ [item]) rest

/-- The consolidator `deduplicate_nested_paths` (scanner.rs:78-103). -/
def deduplicate_nested_paths (items : List CleanableItem) : List CleanableItem :=
  dedupLoop [] (sortByPathLen items)

/-- The tail of the scan orchestrator (scanner.rs:64-76): consolidate
the collected findings and recompute the total size as the sum of the
kept findings' sizes.  The pre-consolidation collection (produced by
the five I/O sweeps) is the argument. -/
def scanAssemble (speed : ScanSpeed) (collected : List CleanableItem) : ScanResults :=
  let items := deduplicate_nested_paths collected
  { items := items
    total_size := (items.map (fun i => i.size)).sum
    scan_speed := speed }

/-! ## Cache-directory sweep (`scan_cache_directories`, scanner.rs:105-169)

The walk itself is I/O; we embed the per-entry decision, taking the
entry's path, its directory flag, and the recursive byte sum that
`get_dir_size` would return. -/

/-- The classifier `categorize_cache` (scanner.rs:466-484). -/
def categorize_cache (path : String) : CleanCategory :=
  let s := strToLower path
  if strContains s "chrome" || strContains s "firefox" || strContains s "safari" then
    .BrowserCache
  else if strContains s "homebrew" || strContains s "brew" then .BrewCache
  else if strContains s "pip" then .PipCache
  else if strContains s "cargo" then .CargoCache
  else if strContains s "npm" || strContains s "yarn" || strContains s "pnpm" then .AppCache
  else if strContains s "library/caches" then .SystemCache
  else .AppCache

/-- The risk assigned to a cache finding (scanner.rs:147-151): every
branch of the `match` yields `Safe`. -/
def cacheRiskFor (category : CleanCategory) : RiskLevel :=
  match category with
  | .SystemCache => .Safe
  | .BrowserCache => .Safe
  | _ => .Safe

/-- The `cache_patterns` regex set (scanner.rs:110-115): `(?i)cache$`,
`(?i)\.cache$`, `(?i)caches$`, `Library/Caches`. -/
def matchesCachePattern (pathStr : String) : Bool :=
  strEndsWith (strToLower pathStr) "cache" ||
  strEndsWith (strToLower pathStr) ".cache" ||
  strEndsWith (strToLower pathStr) "caches" ||
  strContains pathStr "Library/Caches"

/-- One walked entry of a directory sweep: its path, whether it is a
directory, and its recursive byte sum (`get_dir_size`). -/
structure DirEntry where
  path : String
  isDir : Bool
  size : Nat
deriving DecidableEq, Repr

/-- Per-entry logic of `scan_cache_directories` (scanner.rs:129-163):
skip non-directories, skip the tool's own directories, and for a
pattern-matched directory emit a finding iff the recursive size
strictly exceeds 1 MiB. -/
def processCacheEntry (e : DirEntry) : Option CleanableItem :=
  if !e.isDir then none
  else if strContains e.path "/target/" || strContains e.path "/cleanser/" then none
  else if matchesCachePattern e.path then
    if e.size > 1024 * 1024 then
      some { path := e.path
             size := e.size
             category := categorize_cache e.path
             risk_level := cacheRiskFor (categorize_cache e.path)
             description := "Cache directory" }
    else none
  else none

/-! ## Build-artifact sweep (`scan_build_artifacts`, scanner.rs:171-254) -/

/-- The `artifact_patterns` table (scanner.rs:176-188). -/
def artifact_patterns : List (String × CleanCategory × RiskLevel) :=
  [("node_modules", .NodeModules, .Moderate),
   ("target", .BuildArtifacts, .Moderate),
   ("build", .BuildArtifacts, .Moderate),
   ("dist", .BuildArtifacts, .Moderate),
   (".gradle", .BuildArtifacts, .Moderate),
   (".maven", .BuildArtifacts, .Moderate),
   ("__pycache__", .BuildArtifacts, .Safe),
   (".pytest_cache", .BuildArtifacts, .Safe),
   (".next", .BuildArtifacts, .Moderate),
   (".nuxt", .BuildArtifacts, .Moderate),
   ("out", .BuildArtifacts, .Moderate)]

/-- One walked entry of the build-artifact sweep: path, base name
(`file_name`), directory flag, the names of the files present in the
parent directory (`none` when the path has no parent, mirroring the
`if let Some(parent)` guards), and the recursive byte sum. -/
structure ArtifactEntry where
  path : String
  dirName : String
  isDir : Bool
  parentFiles : Option (List String)
  size : Nat
deriving DecidableEq, Repr

/-- The `target` guard (scanner.rs:214-220): a `target` directory is
dropped when its parent exists and holds no `Cargo.toml`. -/
def targetGuardFails (pat : String) (parentFiles : Option (List String)) : Bool :=
  pat = "target" &&
    (match parentFiles with
     | some fs => !(fs.contains "Cargo.toml")
     | none => false)

/-- The `build`/`dist`/`out` guard (scanner.rs:223-234): dropped when
the parent exists and holds none of the recognized project manifests. -/
def projectGuardFails (pat : String) (parentFiles : Option (List String)) : Bool :=
  (pat = "build" || pat = "dist" || pat = "out") &&
    (match parentFiles with
     | some fs => !(fs.contains "package.json" || fs.contains "build.gradle" ||
                    fs.contains "pom.xml" || fs.contains "go.mod")
     | none => false)

/-- Per-entry logic of `scan_build_artifacts` (scanner.rs:197-249).
The Rust inner loop tries each pattern in turn with `dir_name ==
*pattern`; the eleven pattern strings are pairwise distinct, so at most
one iteration can match and the loop is equivalent to `find?`. -/
def processBuildEntry (e : ArtifactEntry) : Option CleanableItem :=
  if !e.isDir then none
  else if strContains e.path "/cleanser/target" then none
  else
    match artifact_patterns.find? (fun p => p.1 == e.dirName) with
    | none => none
    | some (pat, category, risk) =>
      if targetGuardFails pat e.parentFiles then none
      else if projectGuardFails pat e.parentFiles then none
      else if e.size > 1024 * 1024 then
        some { path := e.path
               size := e.size
               category := category
               risk_level := risk
               description := pat ++ " directory" }
      else none

/-! ## Log-file sweep (`scan_log_files`, scanner.rs:256-306) -/

/-- The finding built for a qualifying log file (scanner.rs:287-297). -/
def mkLogItem (path : String) (size : Nat) : CleanableItem :=
  { path := path
    size := size
    category := if strContains path "Library/Logs" then .SystemLogs else .AppLogs
    risk_level := .Safe
    description := "Large log file" }

/-- Per-entry logic of `scan_log_files` (scanner.rs:281-300): a regular
file matching `\.log$` qualifies iff its size exceeds 10 MiB. -/
def processLogEntry (path : String) (isFile : Bool) (size : Nat) : Option CleanableItem :=
  if isFile && strEndsWith path ".log" then
    if size > 10 * 1024 * 1024 then some (mkLogItem path size) else none
  else none

/-! ## Large-file sweep (`scan_large_files`, scanner.rs:308-364) -/

/-- The `skip_dirs` deny list (scanner.rs:316-323). -/
def skip_dirs : List String :=
  ["Library/Application Support", "Library/Mobile Documents", "Applications",
   "/System", "/Library", "Library/Mail"]

/-- The finding built for a qualifying large file (scanner.rs:350-356). -/
def mkLargeItem (path : String) (size : Nat) : CleanableItem :=
  { path := path
    size := size
    category := .LargeFiles
    risk_level := .Risky
    description := "Large file" }

/-- One walked entry of the large-file sweep: path, base name
(`file_name`, `none` for a root such as `/`), file flag and byte size. -/
structure FileEntry where
  path : String
  fileName : Option String
  isFile : Bool
  size : Nat
deriving DecidableEq, Repr

/-- Per-entry logic of `scan_large_files` (scanner.rs:332-359): skip
deny-listed trees, skip hidden names other than `.cache`, and keep a
regular file iff its size is at least the configured minimum. -/
def processLargeEntry (minSizeMb : Nat) (e : FileEntry) : Option CleanableItem :=
  let min_size := minSizeMb * 1024 * 1024
  if skip_dirs.any (fun skip => strContains e.path skip) then none
  else if (match e.fileName with
           | some n => n.toList.head? == some '.' && n ≠ ".cache"
           | none => false) then none
  else if e.isFile then
    if e.size ≥ min_size then some (mkLargeItem e.path e.size) else none
  else none

/-! ## Duplicate detector (`find_duplicates`, scanner.rs:366-430)

Phase 1 collects `(path, size)` for regular files above 1 MiB; phase 2
hashes them and groups by `FileHash`.  Hashing is I/O: a candidate file
carries its byte content, and the SHA-256 digest is modelled by the
content itself — an injective stand-in, so two candidates receive equal
digests exactly when they are byte-identical.  The Rust insertion order
into the shared `HashMap` depends on worker interleaving and `HashMap`
iteration order is arbitrary; we model the sequential interleaving in
which candidates are inserted in collection order and groups iterate in
first-insertion order. -/

/-- A candidate regular file of the duplicate sweep. -/
structure CandidateFile where
  path : String
  content : String
  size : Nat
deriving DecidableEq, Repr

/-- The `FileHash` grouping key of a candidate (scanner.rs:397-400). -/
def fileDigest (f : CandidateFile) : FileHash :=
  { hash := f.content, size := f.size }

/-- The insertion `file_map.entry(file_hash).or_insert_with(Vec::new).push(path)`
(scanner.rs:401-406) on an insertion-ordered association list. -/
def insertFile (m : List (FileHash × List String)) (h : FileHash) (p : String) :
    List (FileHash × List String) :=
  match m with
  | [] => [(h, [p])]
  | (k, ps) :: rest =>
    if k = h then (k, ps ++ [p]) :: rest
    else (k, ps) :: insertFile rest h p

/-- The grouping table built from the candidate list. -/
def buildFileMap (files : List CandidateFile) : List (FileHash × List String) :=
  files.foldl (fun m f => insertFile m (fileDigest f) f.path) []

/-- The finding emitted for one duplicate (scanner.rs:413-425):
`original` is `paths_list[0]`. -/
def mkDupItem (path original : String) (size : Nat) : CleanableItem :=
  { path := path
    size := size
    category := .DuplicateFiles
    risk_level := .Risky
    description := "Duplicate of " ++ original }

/-- The emission loop (scanner.rs:410-428): for every group with at
least two paths, emit one finding per path after the first. -/
def emitDuplicates (m : List (FileHash × List String)) : List CleanableItem :=
  m.flatMap (fun g =>
    match g.2 with
    | [] => []
    | original :: rest => rest.map (fun p => mkDupItem p original g.1.size))

/-- The duplicate sweep `find_duplicates` over the walked regular files: apply the phase-1
size floor (`size > 1024 * 1024`, scanner.rs:385), group, emit. -/
def find_duplicates (files : List CandidateFile) : List CleanableItem :=
  emitDuplicates (buildFileMap (files.filter (fun f => f.size > 1024 * 1024)))

/-! ## Cleaner (`src/cleaner.rs`)

Deletion is I/O: the filesystem is modelled as an association list from
paths to entries, an entry carrying its byte size and whether the
OS-level remove call succeeds (the abstraction of a per-item I/O
failure such as a permission error). -/

/-- A filesystem entry visible to the cleaner. -/
structure FSEntry where
  size : Nat
  removable : Bool
deriving DecidableEq, Repr

/-- The filesystem state the cleaner acts on. -/
def FileSystem := List (String × FSEntry)

/-- Path lookup. -/
def fsLookup (fs : FileSystem) (p : String) : Option FSEntry :=
  ((fs : List (String × FSEntry)).find? (fun e => e.1 == p)).map (fun e => e.2)

/-- Removal of a path. -/
def fsRemove (fs : FileSystem) (p : String) : FileSystem :=
  (fs : List (String × FSEntry)).filter (fun e => !(e.1 == p))

/-- The deleter `delete_item` (cleaner.rs:150-172): a missing path yields `Ok(0)`
and leaves the filesystem unchanged; an existing entry is measured,
then removed, its size returned — unless the remove call fails, which
yields an error and deletes nothing. -/
def delete_item (fs : FileSystem) (path : String) : Except String Nat × FileSystem :=
  match fsLookup fs path with
  | none => (.ok 0, fs)
  | some entry =>
    if entry.removable then (.ok entry.size, fsRemove fs path)
    else (.error "remove failed", fs)

/-- The risk filter of `clean` (cleaner.rs:74-79):
`item.risk_level <= max_risk`. -/
def itemsToClean (results : ScanResults) (max_risk : RiskLevel) : List CleanableItem :=
  results.items.filter (fun item => riskLe item.risk_level max_risk)

/-- The counters of the cleanup loop (cleaner.rs:118-120). -/
structure CleanStats where
  cleaned_size : Nat
  cleaned_count : Nat
  failed_count : Nat
deriving DecidableEq, Repr

/-- The cleanup loop of `clean` (cleaner.rs:122-134): every item is
attempted; a success adds its reclaimed size, a failure only bumps the
failure counter, and the loop continues either way. -/
def cleanLoop (fs : FileSystem) (stats : CleanStats) :
    List CleanableItem → CleanStats × FileSystem
  | [] => (stats, fs)
  | item :: rest =>
    match delete_item fs item.path with
    | (.ok size, fs') =>
      cleanLoop fs' { stats with
                      cleaned_size := stats.cleaned_size + size
                      cleaned_count := stats.cleaned_count + 1 } rest
    | (.error _, fs') =>
      cleanLoop fs' { stats with failed_count := stats.failed_count + 1 } rest

/-- The cleanup phase of `clean` run from zeroed counters. -/
def runClean (fs : FileSystem) (items : List CleanableItem) : CleanStats × FileSystem :=
  cleanLoop fs { cleaned_size := 0, cleaned_count := 0, failed_count := 0 } items

/-! ## Lemmas about the consolidation pass -/

/-- The part of the `deduplicated` vector that `dedupLoop kept l`
appends after `kept`. -/
def dedupFrom (kept : List CleanableItem) : List CleanableItem → List CleanableItem
  | [] => []
  | item :: rest =>
    if isChildOfKept kept item then dedupFrom kept rest
    else item :: dedupFrom (kept ++ [item]) rest

theorem dedupLoop_eq_append (l : List CleanableItem) :
    ∀ kept, dedupLoop kept l = kept ++ dedupFrom kept l := by
  induction l with
  | nil => intro kept; simp [dedupLoop, dedupFrom]
  | cons item rest ih =>
    intro kept
    by_cases h : isChildOfKept kept item
    · simp [dedupLoop, dedupFrom, h, ih]
    · simp [dedupLoop, dedupFrom, h, ih]

theorem dedupFrom_sublist (l : List CleanableItem) :
    ∀ kept, (dedupFrom kept l).Sublist l := by
  induction l with
  | nil => intro kept; simp [dedupFrom]
  | cons item rest ih =>
    intro kept
    by_cases h : isChildOfKept kept item
    · simp only [dedupFrom, h, if_pos]
      exact (ih kept).trans (List.sublist_cons_self item rest)
    · simp only [dedupFrom, h, if_neg, Bool.false_eq_true, not_false_eq_true, ite_false]
      exact (ih (kept ++ [item])).cons₂ item

/-- Re-running the kept-set filter on its own output keeps everything. -/
theorem dedupFrom_idem (l : List CleanableItem) :
    ∀ kept, dedupFrom kept (dedupFrom kept l) = dedupFrom kept l := by
  induction l with
  | nil => intro kept; simp [dedupFrom]
  | cons item rest ih =>
    intro kept
    by_cases h : isChildOfKept kept item
    · simp only [dedupFrom, h, if_pos]
      exact ih kept
    · simp only [dedupFrom, h, if_neg, Bool.false_eq_true, not_false_eq_true, ite_false]
      rw [ih (kept ++ [item])]

/-- The output of the whole pass is sorted by path byte length. -/
theorem dedup_output_sorted (items : List CleanableItem) :
    List.Sorted pathLenLe (deduplicate_nested_paths items) := by
  have hs : List.Sorted pathLenLe (sortByPathLen items) :=
    List.sorted_insertionSort pathLenLe items
  have hsub := dedupFrom_sublist (sortByPathLen items) []
  have : deduplicate_nested_paths items = dedupFrom [] (sortByPathLen items) := by
    simp [deduplicate_nested_paths, dedupLoop_eq_append]
  rw [this]
  exact List.Pairwise.sublist hsub hs

/-- A path is never a strict descendant of itself: the `path !=
kept_path` conjunct fails. -/
theorem isChildPath_self (p : String) : isChildPath p p = false := by
  simp [isChildPath, pathEqB]

/-- Hypothesis under which the consolidation invariant holds: whenever
one finding's path is a strict component-wise descendant of another's,
the descendant's path string is strictly longer.  All collections of
normalized paths (no redundant separators, no trailing separator, no
`.` components) satisfy it; the counterexample below does not. -/
def descLenOk (l : List CleanableItem) : Prop :=
  ∀ a ∈ l, ∀ b ∈ l, isChildPath a.path b.path = true →
    utf8Len b.path < utf8Len a.path

instance (l : List CleanableItem) : Decidable (descLenOk l) :=
  inferInstanceAs (Decidable (∀ a ∈ l, ∀ b ∈ l,
    isChildPath a.path b.path = true → utf8Len b.path < utf8Len a.path))

theorem dedupLoop_pairwise_not_child (l : List CleanableItem) :
    ∀ kept,
      List.Sorted pathLenLe (kept ++ l) →
      (∀ x ∈ kept, ∀ y ∈ kept, isChildPath x.path y.path = false) →
      descLenOk (kept ++ l) →
      ∀ x ∈ dedupLoop kept l, ∀ y ∈ dedupLoop kept l,
        isChildPath x.path y.path = false := by
  induction l with
  | nil => intro kept _ h2 _; simpa [dedupLoop] using h2
  | cons item rest ih =>
    intro kept h1 h2 h3
    by_cases h : isChildOfKept kept item
    · simp only [dedupLoop, h, if_pos]
      apply ih kept
      · exact List.Pairwise.sublist
          (List.Sublist.append_left (List.sublist_cons_self item rest) kept) h1
      · exact h2
      · intro a ha b hb
        apply h3
        · rcases List.mem_append.mp ha with ha | ha
          · exact List.mem_append.mpr (Or.inl ha)
          · exact List.mem_append.mpr (Or.inr (List.mem_cons_of_mem item ha))
        · rcases List.mem_append.mp hb with hb | hb
          · exact List.mem_append.mpr (Or.inl hb)
          · exact List.mem_append.mpr (Or.inr (List.mem_cons_of_mem item hb))
    · simp only [dedupLoop, h, if_neg, Bool.false_eq_true, not_false_eq_true,
        ite_false]
      have hkept : ∀ k ∈ kept, isChildPath item.path k.path = false := by
        intro k hk
        have h' : ¬ (List.any kept fun k => isChildPath item.path k.path) = true := h
        rw [List.any_eq_true] at h'
        push_neg at h'
        exact Bool.not_eq_true _ |>.mp (h' k hk)
      apply ih (kept ++ [item])
      · simpa [List.append_assoc] using h1
      · intro x hx y hy
        rcases List.mem_append.mp hx with hx | hx
        · rcases List.mem_append.mp hy with hy | hy
          · exact h2 x hx y hy
          · have hy' : y = item := List.mem_singleton.mp hy
            cases hxy : isChildPath x.path y.path with
            | false => rfl
            | true =>
              exfalso
              rw [hy'] at hxy
              have hlen : utf8Len item.path < utf8Len x.path :=
                h3 x (List.mem_append.mpr (Or.inl hx)) item (by simp) hxy
              have hle : pathLenLe x item :=
                (List.pairwise_append.mp h1).2.2 x hx item (by simp)
              exact absurd hle (Nat.not_le_of_lt hlen)
        · have hx' : x = item := List.mem_singleton.mp hx
          rcases List.mem_append.mp hy with hy | hy
          · rw [hx']; exact hkept y hy
          · have hy' : y = item := List.mem_singleton.mp hy
            rw [hx', hy']
            exact isChildPath_self item.path
      · simpa [List.append_assoc] using h3

/-- C4: Running the consolidator on its own output returns that
output unchanged: for every finding collection `xs`,
`deduplicate_nested_paths (deduplicate_nested_paths xs) =
deduplicate_nested_paths xs`.  The output of the first run is still
sorted by path byte length, so the second (stable) sort is the
identity, and every kept finding again passes the child test it
already passed. -/
theorem C4_consolidation_idempotent (items : List CleanableItem) :
    deduplicate_nested_paths (deduplicate_nested_paths items) =
      deduplicate_nested_paths items := by
  have key : deduplicate_nested_paths items = dedupFrom [] (sortByPathLen items) := by
    simp [deduplicate_nested_paths, dedupLoop_eq_append]
  have hsort_eq : sortByPathLen (deduplicate_nested_paths items) =
      deduplicate_nested_paths items :=
    List.Sorted.insertionSort_eq (dedup_output_sorted items)
  calc deduplicate_nested_paths (deduplicate_nested_paths items)
      = dedupFrom [] (sortByPathLen (deduplicate_nested_paths items)) := by
        simp [deduplicate_nested_paths, dedupLoop_eq_append]
    _ = dedupFrom [] (deduplicate_nested_paths items) := by rw [hsort_eq]
    _ = dedupFrom [] (dedupFrom [] (sortByPathLen items)) := by rw [key]
    _ = dedupFrom [] (sortByPathLen items) := dedupFrom_idem _ []
    _ = deduplicate_nested_paths items := key.symm

/-- C1 counterexample: The consolidation invariant fails as stated
for arbitrary path strings: with findings at `"/a/b"` (4 bytes) and
`"/a///"` (5 bytes, the same directory as `"/a"` after component
parsing), the length sort places the descendant first, neither finding
is dropped, and the output contains a strict component-wise
descendant pair. -/
theorem C1_counterexample :
    deduplicate_nested_paths
        [{ path := "/a/b", size := 1, category := .AppCache,
           risk_level := .Safe, description := "d" },
         { path := "/a///", size := 2, category := .AppCache,
           risk_level := .Safe, description := "d" }] =
        [{ path := "/a/b", size := 1, category := .AppCache,
           risk_level := .Safe, description := "d" },
         { path := "/a///", size := 2, category := .AppCache,
           risk_level := .Safe, description := "d" }] ∧
      isChildPath "/a/b" "/a///" = true := by decide

/-- C1 amended: For every input collection in which a strict
component-wise descendant always has the strictly longer path string
(true in particular of every collection of normalized paths), no kept
finding's path is a strict descendant of any other kept finding's path
after consolidation; descent is decided component-wise, so `"/a/bb"`
is not a descendant of `"/a/b"`. -/
theorem C1_no_nested_paths_after_consolidation (items : List CleanableItem)
    (H : descLenOk items) :
    ∀ x ∈ deduplicate_nested_paths items, ∀ y ∈ deduplicate_nested_paths items,
      isChildPath x.path y.path = false := by
  have hperm : (sortByPathLen items).Perm items :=
    List.perm_insertionSort pathLenLe items
  have h := dedupLoop_pairwise_not_child (sortByPathLen items) []
    (by simpa using List.sorted_insertionSort pathLenLe items)
    (by intro x hx; simp at hx)
    (by
      intro a ha b hb
      have ha' : a ∈ sortByPathLen items := by simpa using ha
      have hb' : b ∈ sortByPathLen items := by simpa using hb
      exact H a (hperm.mem_iff.mp ha') b (hperm.mem_iff.mp hb'))
  simpa [deduplicate_nested_paths] using h

/-- Witness for C1 (amended) at a concrete two-finding collection with
nested normalized paths. -/
theorem C1_no_nested_paths_witness :
    descLenOk
        [{ path := "/a", size := 5, category := .AppCache,
           risk_level := .Safe, description := "d" },
         { path := "/a/b", size := 1, category := .AppCache,
           risk_level := .Safe, description := "d" }] ∧
      (∀ x ∈ deduplicate_nested_paths
          [{ path := "/a", size := 5, category := .AppCache,
             risk_level := .Safe, description := "d" },
           { path := "/a/b", size := 1, category := .AppCache,
             risk_level := .Safe, description := "d" }],
        ∀ y ∈ deduplicate_nested_paths
          [{ path := "/a", size := 5, category := .AppCache,
             risk_level := .Safe, description := "d" },
           { path := "/a/b", size := 1, category := .AppCache,
             risk_level := .Safe, description := "d" }],
        isChildPath x.path y.path = false) :=
  ⟨by decide, C1_no_nested_paths_after_consolidation _ (by decide)⟩

/-- C2: The `ScanResults` produced by the scan has `total_size`
equal to the sum of the sizes of exactly the findings kept after
consolidation (definitionally, scanner.rs:69); and for a tree whose
5 MiB cache directory contains a 1 MiB sub-directory also matched as a
cache, the consolidated total is 5 MiB — the outer finding only — not
6 MiB. -/
theorem C2_total_size_sum_consolidated :
    (∀ (speed : ScanSpeed) (collected : List CleanableItem),
      (scanAssemble speed collected).total_size =
        ((scanAssemble speed collected).items.map (fun i => i.size)).sum) ∧
    (scanAssemble .Normal
        [{ path := "/home/u/Library/Caches/App", size := 5 * 1024 * 1024,
           category := .SystemCache, risk_level := .Safe, description := "d" },
         { path := "/home/u/Library/Caches/App/WebCache", size := 1024 * 1024,
           category := .SystemCache, risk_level := .Safe, description := "d" }]).items =
      [{ path := "/home/u/Library/Caches/App", size := 5 * 1024 * 1024,
         category := .SystemCache, risk_level := .Safe, description := "d" }] ∧
    (scanAssemble .Normal
        [{ path := "/home/u/Library/Caches/App", size := 5 * 1024 * 1024,
           category := .SystemCache, risk_level := .Safe, description := "d" },
         { path := "/home/u/Library/Caches/App/WebCache", size := 1024 * 1024,
           category := .SystemCache, risk_level := .Safe, description := "d" }]).total_size =
      5 * 1024 * 1024 ∧
    matchesCachePattern "/home/u/Library/Caches/App" = true ∧
    matchesCachePattern "/home/u/Library/Caches/App/WebCache" = true :=
  ⟨fun _ _ => rfl, by decide, by decide, by decide, by decide⟩

/-- C10 counterexample: The claim fails at its full scope, a collection
that merely contains two identical-path findings: adding a finding at
the ancestor path `/a` to two findings at `/a/b` (the same directory
reported by two different sweeps), the consolidator drops both
identical-path findings — each is a strict descendant of the kept
ancestor — and neither contributes to `total_size`. -/
theorem C10_counterexample :
    deduplicate_nested_paths
        [{ path := "/a", size := 7, category := .SystemCache,
           risk_level := .Safe, description := "d" },
         { path := "/a/b", size := 1, category := .AppCache,
           risk_level := .Safe, description := "d" },
         { path := "/a/b", size := 2, category := .NodeModules,
           risk_level := .Moderate, description := "d" }] =
      [{ path := "/a", size := 7, category := .SystemCache,
         risk_level := .Safe, description := "d" }] ∧
    (scanAssemble ScanSpeed.Normal
        [{ path := "/a", size := 7, category := .SystemCache,
           risk_level := .Safe, description := "d" },
         { path := "/a/b", size := 1, category := .AppCache,
           risk_level := .Safe, description := "d" },
         { path := "/a/b", size := 2, category := .NodeModules,
           risk_level := .Moderate, description := "d" }]).total_size = 7 := by
  decide

/-- C10 amended: Equal paths are never treated as descendant — the
`path != kept_path` conjunct of the child test is false for equal
paths, so neither of two identical-path findings is ever dropped in
favor of the other; in particular, for an input collection consisting
exactly of two findings with identical paths (the same directory
matched by two different sweeps), both are kept and both contribute
their size to the aggregate `total_size`.  (Both may still be dropped
together when a third finding's path is a strict ancestor of theirs.) -/
theorem C10_equal_paths_never_descendant :
    (∀ p q : String, p = q → isChildPath p q = false) ∧
    (∀ (a b : CleanableItem), a.path = b.path → ∀ speed : ScanSpeed,
      deduplicate_nested_paths [a, b] = [a, b] ∧
        (scanAssemble speed [a, b]).total_size = a.size + b.size) := by
  constructor
  · intro p q h
    rw [h]
    exact isChildPath_self q
  · intro a b h speed
    have hle : pathLenLe a b := by simp [pathLenLe, h]
    have hsort : sortByPathLen [a, b] = [a, b] := by
      simp [sortByPathLen, List.insertionSort, List.orderedInsert, hle]
    have hchild : isChildPath b.path a.path = false := by
      rw [h]
      exact isChildPath_self b.path
    have hded : deduplicate_nested_paths [a, b] = [a, b] := by
      simp [deduplicate_nested_paths, hsort, dedupLoop, isChildOfKept, hchild]
    refine ⟨hded, ?_⟩
    simp [scanAssemble, hded]

/-- Witness for C10 (amended): one directory reported by both the cache
sweep and the build-artifact sweep, alone in the collection. -/
theorem C10_equal_paths_witness :
    ("/home/u/.cache" : String) = "/home/u/.cache" ∧
    isChildPath "/home/u/.cache" "/home/u/.cache" = false ∧
    ({ path := "/home/u/.cache", size := 3 * 1024 * 1024,
       category := CleanCategory.AppCache, risk_level := RiskLevel.Safe,
       description := "d" } : CleanableItem).path =
      ({ path := "/home/u/.cache", size := 4 * 1024 * 1024,
         category := CleanCategory.NodeModules, risk_level := RiskLevel.Moderate,
         description := "d" } : CleanableItem).path ∧
    (deduplicate_nested_paths
        [{ path := "/home/u/.cache", size := 3 * 1024 * 1024,
           category := CleanCategory.AppCache, risk_level := RiskLevel.Safe,
           description := "d" },
         { path := "/home/u/.cache", size := 4 * 1024 * 1024,
           category := CleanCategory.NodeModules, risk_level := RiskLevel.Moderate,
           description := "d" }] =
        [{ path := "/home/u/.cache", size := 3 * 1024 * 1024,
           category := CleanCategory.AppCache, risk_level := RiskLevel.Safe,
           description := "d" },
         { path := "/home/u/.cache", size := 4 * 1024 * 1024,
           category := CleanCategory.NodeModules, risk_level := RiskLevel.Moderate,
           description := "d" }] ∧
      (scanAssemble ScanSpeed.Normal
          [{ path := "/home/u/.cache", size := 3 * 1024 * 1024,
             category := CleanCategory.AppCache, risk_level := RiskLevel.Safe,
             description := "d" },
           { path := "/home/u/.cache", size := 4 * 1024 * 1024,
             category := CleanCategory.NodeModules, risk_level := RiskLevel.Moderate,
             description := "d" }]).total_size =
        3 * 1024 * 1024 + 4 * 1024 * 1024) :=
  ⟨rfl,
   C10_equal_paths_never_descendant.1 "/home/u/.cache" "/home/u/.cache" rfl,
   rfl,
   C10_equal_paths_never_descendant.2
     { path := "/home/u/.cache", size := 3 * 1024 * 1024,
       category := CleanCategory.AppCache, risk_level := RiskLevel.Safe,
       description := "d" }
     { path := "/home/u/.cache", size := 4 * 1024 * 1024,
       category := CleanCategory.NodeModules, risk_level := RiskLevel.Moderate,
       description := "d" }
     rfl ScanSpeed.Normal⟩

/-- Every branch of the cache-risk `match` yields `Safe`. -/
theorem cacheRiskFor_safe (c : CleanCategory) : cacheRiskFor c = RiskLevel.Safe := by
  cases c <;> rfl

/-- C3: At every finding creation site the risk level is determined
as the spec's table states: cache findings are always `Safe` (whatever
cache category is chosen), log findings are always `Safe`, large-file
findings are `Risky` at `LargeFiles`, duplicate findings are `Risky`
at `DuplicateFiles`, and a build-artifact table entry carries
`Moderate` except the interpreter-cache directory names `__pycache__`
and `.pytest_cache`, which carry `Safe`; every finding the
build-artifact sweep emits takes its category/risk pair from that
table. -/
theorem C3_risk_determined_by_category :
    (∀ c, cacheRiskFor c = RiskLevel.Safe) ∧
    (∀ e it, processCacheEntry e = some it → it.risk_level = RiskLevel.Safe) ∧
    (∀ p s, (mkLogItem p s).risk_level = RiskLevel.Safe) ∧
    (∀ p s, (mkLargeItem p s).risk_level = RiskLevel.Risky ∧
      (mkLargeItem p s).category = CleanCategory.LargeFiles) ∧
    (∀ p o s, (mkDupItem p o s).risk_level = RiskLevel.Risky ∧
      (mkDupItem p o s).category = CleanCategory.DuplicateFiles) ∧
    (∀ pat ∈ artifact_patterns,
      pat.2.2 = if pat.1 = "__pycache__" ∨ pat.1 = ".pytest_cache"
                then RiskLevel.Safe else RiskLevel.Moderate) ∧
    (∀ e it, processBuildEntry e = some it →
      ∃ pat ∈ artifact_patterns,
        it.category = pat.2.1 ∧ it.risk_level = pat.2.2) := by
  refine ⟨cacheRiskFor_safe, ?_, fun _ _ => rfl, fun _ _ => ⟨rfl, rfl⟩,
    fun _ _ _ => ⟨rfl, rfl⟩, by decide, ?_⟩
  · intro e it h
    unfold processCacheEntry at h
    split_ifs at h
    all_goals first
      | exact Option.noConfusion h
      | (injection h with h'; rw [← h']; exact cacheRiskFor_safe _)
  · intro e it h
    unfold processBuildEntry at h
    by_cases h1 : (!e.isDir) = true
    · rw [if_pos h1] at h; exact Option.noConfusion h
    rw [if_neg h1] at h
    by_cases h2 : strContains e.path "/cleanser/target" = true
    · rw [if_pos h2] at h; exact Option.noConfusion h
    rw [if_neg h2] at h
    cases hfind : artifact_patterns.find? (fun p => p.1 == e.dirName) with
    | none => rw [hfind] at h; exact Option.noConfusion h
    | some pat =>
      rw [hfind] at h
      obtain ⟨pname, pcat, prisk⟩ := pat
      dsimp only at h
      split_ifs at h
      all_goals first
        | exact Option.noConfusion h
        | (injection h with h';
           exact ⟨(pname, pcat, prisk), List.mem_of_find?_eq_some hfind,
             by rw [← h'], by rw [← h']⟩)

/-- Witness for C3: the cache sweep on `/home/u/.cache` yields a `Safe`
finding, and the build sweep on a Cargo `target` directory yields a
finding whose category/risk pair comes from the artifact table. -/
theorem C3_risk_witness :
    (processCacheEntry { path := "/home/u/.cache", isDir := true, size := 2097152 } =
      some { path := "/home/u/.cache", size := 2097152,
             category := CleanCategory.AppCache, risk_level := RiskLevel.Safe,
             description := "Cache directory" }) ∧
    ({ path := "/home/u/.cache", size := 2097152,
       category := CleanCategory.AppCache, risk_level := RiskLevel.Safe,
       description := "Cache directory" } : CleanableItem).risk_level =
      RiskLevel.Safe ∧
    (("node_modules", CleanCategory.NodeModules, RiskLevel.Moderate) ∈
      artifact_patterns) ∧
    ("node_modules", CleanCategory.NodeModules, RiskLevel.Moderate).2.2 =
      (if ("node_modules", CleanCategory.NodeModules, RiskLevel.Moderate).1 =
            "__pycache__" ∨
          ("node_modules", CleanCategory.NodeModules, RiskLevel.Moderate).1 =
            ".pytest_cache"
       then RiskLevel.Safe else RiskLevel.Moderate) :=
  ⟨by decide,
   C3_risk_determined_by_category.2.1
     { path := "/home/u/.cache", isDir := true, size := 2097152 }
     { path := "/home/u/.cache", size := 2097152,
       category := CleanCategory.AppCache, risk_level := RiskLevel.Safe,
       description := "Cache directory" }
     (by decide),
   by decide,
   C3_risk_determined_by_category.2.2.2.2.2.1
     ("node_modules", CleanCategory.NodeModules, RiskLevel.Moderate)
     (by decide)⟩

/-- C5: The deletion candidate set of `clean` is exactly the scan
findings whose risk level is at most the caller's ceiling under
`Safe < Moderate < Risky`: membership in `itemsToClean` is equivalent
to membership in the scan items plus `risk_level <= max_risk`; with
ceiling `Moderate` no `Risky` finding is a candidate; with ceiling
`Risky` every finding is a candidate. -/
theorem C5_clean_filter_respects_risk_ceiling :
    (∀ (results : ScanResults) (maxRisk : RiskLevel) (item : CleanableItem),
      item ∈ itemsToClean results maxRisk ↔
        item ∈ results.items ∧ riskLe item.risk_level maxRisk = true) ∧
    (∀ (results : ScanResults) (item : CleanableItem),
      item ∈ itemsToClean results RiskLevel.Moderate →
        item.risk_level ≠ RiskLevel.Risky) ∧
    (∀ results : ScanResults, itemsToClean results RiskLevel.Risky = results.items) := by
  refine ⟨?_, ?_, ?_⟩
  · intro r m item
    simp [itemsToClean, List.mem_filter]
  · intro r item hmem hrisk
    have h2 := (List.mem_filter.mp hmem).2
    rw [hrisk] at h2
    exact absurd h2 (by decide)
  · intro r
    apply List.filter_eq_self.mpr
    intro a _
    cases ha : a.risk_level <;> simp [ha, riskLe, RiskLevel.idx]

/-- Witness for C5 at a one-finding scan result whose finding is
`Safe`. -/
theorem C5_clean_filter_witness :
    ({ path := "/c", size := 1, category := CleanCategory.AppCache,
       risk_level := RiskLevel.Safe, description := "d" } : CleanableItem) ∈
      itemsToClean
        { items := [{ path := "/c", size := 1, category := CleanCategory.AppCache,
                      risk_level := RiskLevel.Safe, description := "d" }],
          total_size := 1, scan_speed := ScanSpeed.Normal }
        RiskLevel.Moderate ∧
    ({ path := "/c", size := 1, category := CleanCategory.AppCache,
       risk_level := RiskLevel.Safe, description := "d" } : CleanableItem).risk_level ≠
      RiskLevel.Risky :=
  ⟨by decide,
   C5_clean_filter_respects_risk_ceiling.2.1
     { items := [{ path := "/c", size := 1, category := CleanCategory.AppCache,
                   risk_level := RiskLevel.Safe, description := "d" }],
       total_size := 1, scan_speed := ScanSpeed.Normal }
     { path := "/c", size := 1, category := CleanCategory.AppCache,
       risk_level := RiskLevel.Safe, description := "d" }
     (by decide)⟩

/-- C7: A directory entry that reaches the cache pattern match (a
directory, not self-excluded) and matches a cache pattern produces a
finding iff its recursive byte sum strictly exceeds 1 MiB; at exactly
1,048,576 bytes it is excluded and at 1,048,577 bytes included. -/
theorem C7_cache_threshold_strict :
    (∀ e : DirEntry, e.isDir = true →
      strContains e.path "/target/" = false →
      strContains e.path "/cleanser/" = false →
      matchesCachePattern e.path = true →
      ((processCacheEntry e).isSome ↔ 1024 * 1024 < e.size)) ∧
    processCacheEntry { path := "/home/u/mycache", isDir := true, size := 1048576 } =
      none ∧
    processCacheEntry { path := "/home/u/mycache", isDir := true, size := 1048577 } =
      some { path := "/home/u/mycache", size := 1048577,
             category := CleanCategory.AppCache, risk_level := RiskLevel.Safe,
             description := "Cache directory" } := by
  refine ⟨?_, by decide, by decide⟩
  intro e hdir h1 h2 hm
  simp only [processCacheEntry, hdir, h1, h2, hm, Bool.not_true, Bool.or_self,
    Bool.false_eq_true, if_false, if_true]
  split_ifs with hs
  · simpa using hs
  · simpa using hs

/-- Witness for C7 at a 2 MiB platform cache directory. -/
theorem C7_cache_threshold_witness :
    ({ path := "/home/u/Library/Caches/App", isDir := true,
       size := 2 * 1024 * 1024 } : DirEntry).isDir = true ∧
    strContains "/home/u/Library/Caches/App" "/target/" = false ∧
    strContains "/home/u/Library/Caches/App" "/cleanser/" = false ∧
    matchesCachePattern "/home/u/Library/Caches/App" = true ∧
    ((processCacheEntry
        { path := "/home/u/Library/Caches/App", isDir := true,
          size := 2 * 1024 * 1024 }).isSome ↔
      1024 * 1024 < 2 * 1024 * 1024) :=
  ⟨rfl, by decide, by decide, by decide,
   C7_cache_threshold_strict.1
     { path := "/home/u/Library/Caches/App", isDir := true, size := 2 * 1024 * 1024 }
     rfl (by decide) (by decide) (by decide)⟩

/-- Evaluation of the build-artifact per-entry logic once the pattern
lookup is known. -/
theorem processBuildEntry_eval (e : ArtifactEntry) (pat : String)
    (cat : CleanCategory) (risk : RiskLevel)
    (hdir : e.isDir = true)
    (hskip : strContains e.path "/cleanser/target" = false)
    (hfind : artifact_patterns.find? (fun p => p.1 == e.dirName) =
      some (pat, cat, risk)) :
    processBuildEntry e =
      (if targetGuardFails pat e.parentFiles then none
       else if projectGuardFails pat e.parentFiles then none
       else if e.size > 1024 * 1024 then
         some { path := e.path, size := e.size, category := cat,
                risk_level := risk, description := pat ++ " directory" }
       else none) := by
  simp only [processBuildEntry, hdir, hskip, Bool.not_true, Bool.false_eq_true,
    if_false, hfind]

/-- The build-artifact per-entry logic yields nothing when the matched
pattern's guard fails. -/
theorem processBuildEntry_none_of_guard (e : ArtifactEntry) (pat : String)
    (cat : CleanCategory) (risk : RiskLevel)
    (hfind : artifact_patterns.find? (fun p => p.1 == e.dirName) =
      some (pat, cat, risk))
    (hguard : targetGuardFails pat e.parentFiles = true ∨
      projectGuardFails pat e.parentFiles = true) :
    processBuildEntry e = none := by
  unfold processBuildEntry
  by_cases h1 : (!e.isDir) = true
  · rw [if_pos h1]
  · rw [if_neg h1]
    by_cases h2 : strContains e.path "/cleanser/target" = true
    · rw [if_pos h2]
    · rw [if_neg h2]
      rw [hfind]
      dsimp only
      rcases hguard with hg | hg
      · rw [if_pos hg]
      · by_cases hg1 : targetGuardFails pat e.parentFiles = true
        · rw [if_pos hg1]
        · rw [if_neg hg1, if_pos hg]

/-- C8 counterexample: The claim promises that adding a sibling
manifest causes a `build` directory to produce a finding; the code
still produces none when the directory's recursive size does not
exceed 1 MiB.  With `package.json` present and 1,000 bytes of content,
no finding is produced — exactly as without the manifest. -/
theorem C8_counterexample :
    processBuildEntry { path := "/p/build", dirName := "build", isDir := true,
                        parentFiles := some [], size := 1000 } = none ∧
    processBuildEntry { path := "/p/build", dirName := "build", isDir := true,
                        parentFiles := some ["package.json"], size := 1000 } =
      none := by decide

/-- C8 amended: A `target` directory with a parent produces a
finding only if the parent holds `Cargo.toml`; a `build`/`dist`/`out`
directory with a parent produces a finding only if the parent holds one
of `package.json`, `build.gradle`, `pom.xml`, `go.mod`; with no such
manifest no finding is produced, and adding one causes a finding to be
produced provided the directory's recursive size exceeds 1 MiB (and the
entry is a directory not excluded as the tool's own `target`). -/
theorem C8_build_artifact_guards :
    (∀ (e : ArtifactEntry) (fs : List String), e.dirName = "target" →
      e.parentFiles = some fs → "Cargo.toml" ∉ fs →
      processBuildEntry e = none) ∧
    (∀ (e : ArtifactEntry) (fs : List String),
      (e.dirName = "build" ∨ e.dirName = "dist" ∨ e.dirName = "out") →
      e.parentFiles = some fs →
      "package.json" ∉ fs → "build.gradle" ∉ fs →
      "pom.xml" ∉ fs → "go.mod" ∉ fs →
      processBuildEntry e = none) ∧
    (∀ (e : ArtifactEntry) (fs : List String), e.isDir = true →
      strContains e.path "/cleanser/target" = false →
      e.dirName = "target" → e.parentFiles = some fs →
      "Cargo.toml" ∈ fs → 1024 * 1024 < e.size →
      (processBuildEntry e).isSome = true) ∧
    (∀ (e : ArtifactEntry) (fs : List String), e.isDir = true →
      strContains e.path "/cleanser/target" = false →
      (e.dirName = "build" ∨ e.dirName = "dist" ∨ e.dirName = "out") →
      e.parentFiles = some fs →
      ("package.json" ∈ fs ∨ "build.gradle" ∈ fs ∨
       "pom.xml" ∈ fs ∨ "go.mod" ∈ fs) →
      1024 * 1024 < e.size →
      (processBuildEntry e).isSome = true) := by
  refine ⟨?_, ?_, ?_, ?_⟩
  · intro e fs hname hpf hcargo
    exact processBuildEntry_none_of_guard e "target" CleanCategory.BuildArtifacts
      RiskLevel.Moderate (by rw [hname]; decide)
      (Or.inl (by rw [hpf]; simp [targetGuardFails, hcargo]))
  · intro e fs hname hpf hc1 hc2 hc3 hc4
    rcases hname with h | h | h
    · exact processBuildEntry_none_of_guard e "build" CleanCategory.BuildArtifacts
        RiskLevel.Moderate (by rw [h]; decide)
        (Or.inr (by rw [hpf]; simp [projectGuardFails, hc1, hc2, hc3, hc4]))
    · exact processBuildEntry_none_of_guard e "dist" CleanCategory.BuildArtifacts
        RiskLevel.Moderate (by rw [h]; decide)
        (Or.inr (by rw [hpf]; simp [projectGuardFails, hc1, hc2, hc3, hc4]))
    · exact processBuildEntry_none_of_guard e "out" CleanCategory.BuildArtifacts
        RiskLevel.Moderate (by rw [h]; decide)
        (Or.inr (by rw [hpf]; simp [projectGuardFails, hc1, hc2, hc3, hc4]))
  · intro e fs hdir hskip hname hpf hcargo hsize
    rw [processBuildEntry_eval e "target" CleanCategory.BuildArtifacts
      RiskLevel.Moderate hdir hskip (by rw [hname]; decide)]
    have hg1 : targetGuardFails "target" e.parentFiles = false := by
      rw [hpf]; simp [targetGuardFails, hcargo]
    have hg2 : projectGuardFails "target" e.parentFiles = false := by
      simp [projectGuardFails]
    simp [hg1, hg2, hsize]
  · intro e fs hdir hskip hname hpf hman hsize
    have hg2 : ∀ pat, projectGuardFails pat (some fs) = false := by
      intro pat
      rcases hman with hc | hc | hc | hc <;> simp [projectGuardFails, hc]
    rcases hname with h | h | h
    · rw [processBuildEntry_eval e "build" CleanCategory.BuildArtifacts
        RiskLevel.Moderate hdir hskip (by rw [h]; decide), hpf]
      have hg1 : targetGuardFails "build" (some fs) = false := by
        simp [targetGuardFails]
      simp [hg1, hg2 "build", hsize]
    · rw [processBuildEntry_eval e "dist" CleanCategory.BuildArtifacts
        RiskLevel.Moderate hdir hskip (by rw [h]; decide), hpf]
      have hg1 : targetGuardFails "dist" (some fs) = false := by
        simp [targetGuardFails]
      simp [hg1, hg2 "dist", hsize]
    · rw [processBuildEntry_eval e "out" CleanCategory.BuildArtifacts
        RiskLevel.Moderate hdir hskip (by rw [h]; decide), hpf]
      have hg1 : targetGuardFails "out" (some fs) = false := by
        simp [targetGuardFails]
      simp [hg1, hg2 "out", hsize]

/-- Witness for C8 (amended): a 2 MiB `build` directory next to a
`package.json` produces a finding; the same directory next to only a
`README.md` produces none. -/
theorem C8_build_artifact_witness :
    processBuildEntry { path := "/p/build", dirName := "build", isDir := true,
                        parentFiles := some ["README.md"], size := 2097152 } =
      none ∧
    (processBuildEntry { path := "/p/build", dirName := "build", isDir := true,
                         parentFiles := some ["package.json"],
                         size := 2097152 }).isSome = true :=
  ⟨C8_build_artifact_guards.2.1
     { path := "/p/build", dirName := "build", isDir := true,
       parentFiles := some ["README.md"], size := 2097152 }
     ["README.md"] (Or.inl rfl) rfl (by decide) (by decide) (by decide) (by decide),
   C8_build_artifact_guards.2.2.2
     { path := "/p/build", dirName := "build", isDir := true,
       parentFiles := some ["package.json"], size := 2097152 }
     ["package.json"] rfl (by decide) (Or.inl rfl) rfl (Or.inl (by decide))
     (by decide)⟩

/-- C9: Deleting an item whose path no longer exists on the
filesystem returns zero bytes reclaimed as a success, leaving the
filesystem untouched; and the cleanup loop attempts every item — each
item ends in exactly one of the success or failure counters, so a
per-item failure never aborts the remaining deletions. -/
theorem C9_deletion_error_handling :
    (∀ (fs : FileSystem) (path : String), fsLookup fs path = none →
      delete_item fs path = (Except.ok 0, fs)) ∧
    (∀ (fs : FileSystem) (stats : CleanStats) (items : List CleanableItem),
      (cleanLoop fs stats items).1.cleaned_count +
          (cleanLoop fs stats items).1.failed_count =
        stats.cleaned_count + stats.failed_count + items.length) := by
  refine ⟨?_, ?_⟩
  · intro fs path h
    unfold delete_item
    rw [h]
  · intro fs stats items
    induction items generalizing fs stats with
    | nil => simp [cleanLoop]
    | cons item rest ih =>
      cases hdel : delete_item fs item.path with
      | mk res fs2 =>
        cases res with
        | ok size =>
          simp only [cleanLoop, hdel]
          rw [ih fs2 { stats with
            cleaned_size := stats.cleaned_size + size
            cleaned_count := stats.cleaned_count + 1 }]
          simp only [List.length_cons]
          omega
        | error msg =>
          simp only [cleanLoop, hdel]
          rw [ih fs2 { stats with failed_count := stats.failed_count + 1 }]
          simp only [List.length_cons]
          omega

/-- Witness for C9: deleting a path absent from a one-entry filesystem
yields `Ok(0)` and changes nothing. -/
theorem C9_missing_path_witness :
    fsLookup [("/x", { size := 5, removable := true })] "/gone" = none ∧
    delete_item [("/x", { size := 5, removable := true })] "/gone" =
      (Except.ok 0, [("/x", { size := 5, removable := true })]) :=
  ⟨by decide,
   C9_deletion_error_handling.1 [("/x", { size := 5, removable := true })]
     "/gone" (by decide)⟩

/-! ## Lemmas about the duplicate detector's grouping table -/

/-- The path list stored in a grouping table under a digest (empty when
the digest is absent). -/
def lookupGroup (m : List (FileHash × List String)) (h : FileHash) : List String :=
  ((m.find? (fun g => g.1 = h)).map (fun g => g.2)).getD []

/-- The digests present in a grouping table, in insertion order. -/
def keysOf (m : List (FileHash × List String)) : List FileHash :=
  m.map (fun g => g.1)

theorem lookupGroup_cons_self (k : FileHash) (ps : List String)
    (t : List (FileHash × List String)) :
    lookupGroup ((k, ps) :: t) k = ps := by
  simp only [lookupGroup]
  rw [List.find?_cons_of_pos t (by simp)]
  rfl

theorem lookupGroup_cons_ne (k h' : FileHash) (ps : List String)
    (t : List (FileHash × List String)) (hne : ¬k = h') :
    lookupGroup ((k, ps) :: t) h' = lookupGroup t h' := by
  simp only [lookupGroup]
  rw [List.find?_cons_of_neg t (by simpa using hne)]

theorem lookupGroup_nil (h' : FileHash) : lookupGroup [] h' = [] := by
  simp [lookupGroup]

theorem lookupGroup_insertFile (m : List (FileHash × List String))
    (h h' : FileHash) (p : String) :
    lookupGroup (insertFile m h p) h' =
      if h' = h then lookupGroup m h' ++ [p] else lookupGroup m h' := by
  induction m with
  | nil =>
    by_cases he : h' = h
    · subst he
      rw [if_pos rfl]
      show lookupGroup [(h', [p])] h' = lookupGroup [] h' ++ [p]
      rw [lookupGroup_cons_self, lookupGroup_nil]
      rfl
    · rw [if_neg he]
      show lookupGroup [(h, [p])] h' = lookupGroup [] h'
      rw [lookupGroup_cons_ne h h' [p] [] (fun hcon => he hcon.symm)]
  | cons g rest ih =>
    obtain ⟨k, ps⟩ := g
    by_cases hk : k = h
    · simp only [insertFile, if_pos hk]
      by_cases he : h' = k
      · rw [he, if_pos hk, lookupGroup_cons_self, lookupGroup_cons_self]
      · have he' : ¬h' = h := by rw [← hk]; exact he
        rw [lookupGroup_cons_ne k h' (ps ++ [p]) rest (fun hcon => he hcon.symm),
          if_neg he',
          lookupGroup_cons_ne k h' ps rest (fun hcon => he hcon.symm)]
    · simp only [insertFile, if_neg hk]
      by_cases he : h' = k
      · rw [he, if_neg hk, lookupGroup_cons_self, lookupGroup_cons_self]
      · rw [lookupGroup_cons_ne k h' ps _ (fun hcon => he hcon.symm),
          lookupGroup_cons_ne k h' ps rest (fun hcon => he hcon.symm), ih]

theorem lookupGroup_foldInsert (files : List CandidateFile) :
    ∀ (m : List (FileHash × List String)) (h : FileHash),
      lookupGroup
          (files.foldl (fun acc f => insertFile acc (fileDigest f) f.path) m) h =
        lookupGroup m h ++
          (files.filter (fun f => fileDigest f == h)).map (fun f => f.path) := by
  induction files with
  | nil => intro m h; simp
  | cons f rest ih =>
    intro m h
    simp only [List.foldl_cons, List.filter_cons]
    rw [ih, lookupGroup_insertFile]
    by_cases he : h = fileDigest f
    · rw [if_pos he, if_pos (by simpa using he.symm)]
      simp
    · rw [if_neg he, if_neg (by simpa using fun hcon => he hcon.symm)]

theorem keysOf_insertFile (m : List (FileHash × List String)) (h : FileHash)
    (p : String) :
    keysOf (insertFile m h p) = keysOf m ∨
      (keysOf (insertFile m h p) = keysOf m ++ [h] ∧ h ∉ keysOf m) := by
  induction m with
  | nil =>
    right
    simp [insertFile, keysOf]
  | cons g rest ih =>
    obtain ⟨k, ps⟩ := g
    by_cases hk : k = h
    · left
      subst hk
      simp [insertFile, keysOf]
    · rcases ih with ih | ⟨ih1, ih2⟩
      · left
        simp only [insertFile, if_neg hk]
        show k :: keysOf (insertFile rest h p) = k :: keysOf rest
        rw [ih]
      · right
        refine ⟨?_, ?_⟩
        · simp only [insertFile, if_neg hk]
          show k :: keysOf (insertFile rest h p) = (k :: keysOf rest) ++ [h]
          rw [ih1]
          simp
        · show h ∉ k :: keysOf rest
          simp only [List.mem_cons]
          rintro (hcon | hcon)
          · exact hk hcon.symm
          · exact ih2 hcon

theorem nodupKeys_insertFile (m : List (FileHash × List String)) (h : FileHash)
    (p : String) (hn : (keysOf m).Nodup) : (keysOf (insertFile m h p)).Nodup := by
  rcases keysOf_insertFile m h p with h1 | ⟨h1, h2⟩
  · rw [h1]; exact hn
  · rw [h1]
    exact List.Nodup.append hn (List.nodup_singleton h)
      (List.disjoint_singleton.mpr h2)

theorem nodupKeys_foldInsert (files : List CandidateFile) :
    ∀ m, (keysOf m).Nodup →
      (keysOf (files.foldl (fun acc f => insertFile acc (fileDigest f) f.path) m)).Nodup := by
  induction files with
  | nil => intro m hm; simpa
  | cons f rest ih =>
    intro m hm
    simp only [List.foldl_cons]
    exact ih _ (nodupKeys_insertFile m (fileDigest f) f.path hm)

theorem nodupKeys_buildFileMap (files : List CandidateFile) :
    (keysOf (buildFileMap files)).Nodup :=
  nodupKeys_foldInsert files [] (by simp [keysOf])

theorem find?_eq_of_mem_nodupKeys (m : List (FileHash × List String))
    (g : FileHash × List String) (hg : g ∈ m) (hn : (keysOf m).Nodup) :
    m.find? (fun e => e.1 = g.1) = some g := by
  induction m with
  | nil => cases hg
  | cons g0 rest ih =>
    have hn0 : (g0.1 :: keysOf rest).Nodup := hn
    have hn' := List.nodup_cons.mp hn0
    rcases List.mem_cons.mp hg with rfl | hg'
    · exact List.find?_cons_of_pos rest (by simp)
    · have hk : ¬g0.1 = g.1 := by
        have hmem : g.1 ∈ keysOf rest := List.mem_map_of_mem _ hg'
        intro he
        exact hn'.1 (he ▸ hmem)
      rw [List.find?_cons_of_neg rest (by simpa using hk)]
      exact ih hg' hn'.2

/-- The grouping entry found for a key of the table is the stored
group. -/
theorem lookupGroup_eq_of_mem (m : List (FileHash × List String))
    (g : FileHash × List String) (hg : g ∈ m) (hn : (keysOf m).Nodup) :
    lookupGroup m g.1 = g.2 := by
  simp [lookupGroup, find?_eq_of_mem_nodupKeys m g hg hn]

/-- Membership in the emission loop's output. -/
theorem mem_emitDuplicates (m : List (FileHash × List String))
    (it : CleanableItem) :
    it ∈ emitDuplicates m ↔
      ∃ g ∈ m, ∃ orig rest, g.2 = orig :: rest ∧
        it ∈ rest.map (fun p => mkDupItem p orig g.1.size) := by
  unfold emitDuplicates
  rw [List.mem_flatMap]
  constructor
  · rintro ⟨g, hgm, hit⟩
    cases hps : g.2 with
    | nil => rw [hps] at hit; simp at hit
    | cons o rest =>
      rw [hps] at hit
      exact ⟨g, hgm, o, rest, hps, by simpa using hit⟩
  · rintro ⟨g, hgm, o, rest, hps, hit⟩
    exact ⟨g, hgm, by rw [hps]; simpa using hit⟩

/-- The candidate files of one digest group, in collection order, after
the phase-1 size floor. -/
def groupPathsOf (files : List CandidateFile) (h : FileHash) : List String :=
  ((files.filter (fun f => f.size > 1024 * 1024)).filter
    (fun f => fileDigest f == h)).map (fun f => f.path)

/-- C6: A finding is emitted exactly for the non-first members of a
digest group: membership in the duplicate sweep's output is equivalent
to being one of the findings built from the tail of some digest's
candidate list, referencing its head as the original.  In particular
for files `A`, `B` byte-identical and `C` differing, exactly one
finding is emitted — for `B`, `Risky`/`DuplicateFiles`, describing it
as a duplicate of `A` — never one for `A`, never one for `C`. -/
theorem C6_duplicates_one_per_non_first :
    (∀ (files : List CandidateFile) (it : CleanableItem),
      it ∈ find_duplicates files ↔
        ∃ h orig rest, groupPathsOf files h = orig :: rest ∧
          it ∈ rest.map (fun p => mkDupItem p orig h.size)) ∧
    (∀ (A B C cx cy : String) (sa sc : Nat), cx ≠ cy →
      1024 * 1024 < sa → 1024 * 1024 < sc →
      find_duplicates
        [{ path := A, content := cx, size := sa },
         { path := B, content := cx, size := sa },
         { path := C, content := cy, size := sc }] = [mkDupItem B A sa]) := by
  constructor
  · intro files it
    have hnd := nodupKeys_buildFileMap (files.filter (fun f => f.size > 1024 * 1024))
    have hlg : ∀ hsh : FileHash,
        lookupGroup (buildFileMap (files.filter (fun f => f.size > 1024 * 1024))) hsh =
          groupPathsOf files hsh := by
      intro hsh
      show lookupGroup ((files.filter (fun f => f.size > 1024 * 1024)).foldl
        (fun acc f => insertFile acc (fileDigest f) f.path) []) hsh = _
      rw [lookupGroup_foldInsert, lookupGroup_nil]
      rfl
    constructor
    · intro hmem
      obtain ⟨g, hg, orig, rest, hps, hit⟩ :=
        (mem_emitDuplicates (buildFileMap
          (files.filter (fun f => f.size > 1024 * 1024))) it).mp hmem
      refine ⟨g.1, orig, rest, ?_, hit⟩
      rw [← hlg g.1, lookupGroup_eq_of_mem _ g hg hnd, hps]
    · rintro ⟨h, orig, rest, hps, hit⟩
      apply (mem_emitDuplicates (buildFileMap
        (files.filter (fun f => f.size > 1024 * 1024))) it).mpr
      have hlg' : lookupGroup (buildFileMap
          (files.filter (fun f => f.size > 1024 * 1024))) h = orig :: rest := by
        rw [hlg h, hps]
      cases hfind : (buildFileMap
          (files.filter (fun f => f.size > 1024 * 1024))).find?
            (fun e => e.1 = h) with
      | none =>
        exfalso
        unfold lookupGroup at hlg'
        rw [hfind] at hlg'
        simp at hlg'
      | some g =>
        have hp := List.find?_some hfind
        have hg1 : g.1 = h := by simpa using hp
        have hgm := List.mem_of_find?_eq_some hfind
        have hg2 : g.2 = orig :: rest := by
          unfold lookupGroup at hlg'
          rw [hfind] at hlg'
          simpa using hlg'
        exact ⟨g, hgm, orig, rest, hg2, by rw [hg1]; exact hit⟩
  · intro A B C cx cy sa sc hne hsa hsc
    simp [find_duplicates, buildFileMap, insertFile, emitDuplicates, fileDigest,
      hsa, hsc, hne, FileHash.mk.injEq]

/-- Witness for C6: two byte-identical 2 MiB files and one differing
file yield exactly the finding for the second file, referencing the
first. -/
theorem C6_duplicates_witness :
    ("samebytes" : String) ≠ "otherbytes" ∧
    1024 * 1024 < 2097152 ∧ 1024 * 1024 < 1500000 ∧
    find_duplicates
      [{ path := "/f/a", content := "samebytes", size := 2097152 },
       { path := "/f/b", content := "samebytes", size := 2097152 },
       { path := "/f/c", content := "otherbytes", size := 1500000 }] =
      [mkDupItem "/f/b" "/f/a" 2097152] :=
  ⟨by decide, by decide, by decide,
   C6_duplicates_one_per_non_first.2 "/f/a" "/f/b" "/f/c" "samebytes"
     "otherbytes" 2097152 1500000 (by decide) (by decide) (by decide)⟩

end Cleanser
